import Mathlib

/-!
Verification development for the task-set generation and progress-tracking
core of the stm_automator repository.

The embedding translates the Python source under `src/` into Lean:

* `src/ui/native/taskset.py` — `TaskSet.create_tasks`, `TaskSet.setStatus`,
  `TaskSet.update_task_bar`, `TaskItem.set_completed`;
* `src/ui/app.py` — `Ui_MainWindow.update_total_images`,
  `Ui_MainWindow.update_time_to_finish`.

Python floats are embedded as exact rationals (`ℚ`); Python `//` on floats is
the floor of the true quotient, `int(...)` truncates toward zero; code that
can raise an exception is embedded in `Except`.  The helper data classes
imported from `core/` (`ExponentialNumber`, `TaskSetData`, `TaskData`,
`ImageData`) are not present under `src/` and are modelled from the spec, as
marked in their doc comments.
-/

/-- Error kinds used by this development.  `zeroDivisionError` models Python's
`ZeroDivisionError`, which is what `numpy.arange` raises on a zero step and
what a float division or floor-division by zero raises.  `invalidSweep` is the
spec's `InvalidSweep` error kind (spec section 7), included so that claims
mentioning it can be stated; the source never produces it. -/
inductive PyError where
  | zeroDivisionError
  | invalidSweep
deriving DecidableEq

/-- Modelled from the spec: `core/exponentialnumber.py` (the Scaled Decimal
Value of spec sections 3 and 4.1) is not under `src/`.  A mantissa/exponent
pair whose resolved value is `sig * 10 ^ exp`. -/
structure ExponentialNumber where
  sig : ℚ
  exp : ℤ
deriving DecidableEq

/-- Modelled from the spec: resolution of a Scaled Decimal Value to a plain
number is exact and total (spec section 4.1, `toReal`). -/
def ExponentialNumber.to_float (e : ExponentialNumber) : ℚ :=
  e.sig * (10 : ℚ) ^ e.exp

/-- Modelled from the spec: construction from a plain number preserves the
value exactly (spec sections 4.1 and 8, the round-trip law); the particular
mantissa/exponent split is display-only, so the value is kept as the mantissa
with exponent 0. -/
def ExponentialNumber.from_float (x : ℚ) : ExponentialNumber :=
  ⟨x, 0⟩

/-- Modelled from the spec: the sweep axis selector of `core/tasksetdata.py`
(spec section 3, `sweep_parameter ∈ {none, bias, size}`). -/
inductive SweepParameter where
  | none
  | bias
  | size
deriving DecidableEq

/-- Modelled from the spec: the Work Item type tag of `core/taskdata.py`
(spec section 3: an Image scan or a Point Spectroscopy job). -/
inductive TaskType where
  | Image
  | Spectroscopy
deriving DecidableEq

/-- Modelled from the spec: `core/tasksetdata.py` `TaskSetData` — the Sweep
Specification (spec section 3), restricted to the fields read by the code
under `src/`. -/
structure TaskSetData where
  bias : ExponentialNumber
  set_point : ExponentialNumber
  size : ExponentialNumber
  x_offset : ExponentialNumber
  y_offset : ExponentialNumber
  scan_speed : ExponentialNumber
  line_time : ExponentialNumber
  lines_per_frame : ℤ
  repetitions : ℤ
  sweep_parameter : SweepParameter
  sweep_start : ExponentialNumber
  sweep_stop : ExponentialNumber
  sweep_step : ExponentialNumber
deriving DecidableEq

/-- Modelled from the spec: `core/imagedata.py` `ImageData` — the parameters
of an Image Work Item (spec section 3). -/
structure ImageData where
  bias : ExponentialNumber
  size : ExponentialNumber
  x_offset : ExponentialNumber
  y_offset : ExponentialNumber
  scan_speed : ExponentialNumber
  line_time : ExponentialNumber
  lines_per_frame : ℤ
  set_point : ExponentialNumber
deriving DecidableEq

/-- Modelled from the spec: the constructor call `ImageData(data)` used in
`TaskSet.create_tasks` copies the base parameters out of the `TaskSetData`. -/
def ImageData.ofData (data : TaskSetData) : ImageData :=
  { bias := data.bias
    size := data.size
    x_offset := data.x_offset
    y_offset := data.y_offset
    scan_speed := data.scan_speed
    line_time := data.line_time
    lines_per_frame := data.lines_per_frame
    set_point := data.set_point }

/-- Modelled from the spec: `core/taskdata.py` `TaskData` — one Work Item
(spec section 3): a payload, a type tag, and a `completed` flag that defaults
to false. -/
structure TaskData where
  inner : ImageData
  dtype : TaskType
  completed : Bool := false
deriving DecidableEq

/-- Embedding of `numpy.arange(start, stop, step)` on float arguments, as
called by `TaskSet.create_tasks` (src/ui/native/taskset.py lines 250 and 256):
the result has `⌈(stop - start) / step⌉` elements (none when that quantity is
nonpositive), the i-th element is `start + i * step`, and a zero step raises
`ZeroDivisionError`. -/
def np_arange (start stop step : ℚ) : Except PyError (List ℚ) :=
  if step = 0 then .error .zeroDivisionError
  else .ok ((List.range (⌈(stop - start) / step⌉).toNat).map
    fun i : ℕ => start + (i : ℚ) * step)

/-- Embedding of `TaskSet.create_tasks` (src/ui/native/taskset.py lines
243-262): with no sweep axis, a single Image Work Item with the base
parameters; with a bias (or size) sweep, one Image Work Item per value of
`np.arange(sweep_start, sweep_stop + sweep_step, sweep_step)`, the swept field
replaced by that value. -/
def create_tasks (data : TaskSetData) : Except PyError (List TaskData) :=
  match data.sweep_parameter with
  | .none => .ok [{ inner := ImageData.ofData data, dtype := .Image }]
  | .bias =>
      (np_arange data.sweep_start.to_float
          (data.sweep_stop.to_float + data.sweep_step.to_float)
          data.sweep_step.to_float).map
        (List.map fun v =>
          { inner := { ImageData.ofData data with bias := .from_float v }
            dtype := .Image, completed := false })
  | .size =>
      (np_arange data.sweep_start.to_float
          (data.sweep_stop.to_float + data.sweep_step.to_float)
          data.sweep_step.to_float).map
        (List.map fun v =>
          { inner := { ImageData.ofData data with size := .from_float v }
            dtype := .Image })

/-- Embedding of `TaskSet.Status` (src/ui/native/taskset.py line 190). -/
inductive TaskSet.Status where
  | Ready
  | Working
  | Finished
  | Error
deriving DecidableEq

/-- State of a `TaskSet` relevant to the core (src/ui/native/taskset.py):
its status, its Work Items (`self.tasks`, mirrored by `self._info.task_items`),
and the progress-bar fraction (`self._task_bar.value`). -/
structure TaskSet.State where
  status : TaskSet.Status
  tasks : List TaskData
  bar_value : ℚ
deriving DecidableEq

/-- Embedding of `TaskSet.update_task_bar` (src/ui/native/taskset.py lines
328-332): stores the fraction of completed items into the bar.  The Python
division `len(completed_tasks) / len(self._info.task_items)` raises
`ZeroDivisionError` when the item list is empty; that exception is modelled
by the `Except.error` branch. -/
def TaskSet.update_task_bar (s : TaskSet.State) : Except PyError TaskSet.State :=
  if s.tasks.length = 0 then .error .zeroDivisionError
  else
    .ok { s with bar_value :=
      ((s.tasks.filter fun t => t.completed).length : ℚ) / (s.tasks.length : ℚ) }

/-- Embedding of `TaskSet.setStatus` (src/ui/native/taskset.py lines 284-287):
unconditionally stores the new status — there is no check against the current
status — then updates the bar colour (display-only, not modelled) and calls
`update_task_bar`. -/
def TaskSet.setStatus (s : TaskSet.State) (status : TaskSet.Status) :
    Except PyError TaskSet.State :=
  TaskSet.update_task_bar { s with status := status }

/-- Embedding of `TaskItem.set_completed` (src/ui/native/taskset.py lines
124-125): sets the item's completed flag and touches nothing else. -/
def TaskItem.set_completed (t : TaskData) (val : Bool) : TaskData :=
  { t with completed := val }

/-- Application of `TaskItem.set_completed` to the element of a list at a
given index, leaving every other element alone. -/
def setCompletedAt : List TaskData → ℕ → Bool → List TaskData
  | [], _, _ => []
  | t :: ts, 0, val => TaskItem.set_completed t val :: ts
  | t :: ts, n + 1, val => t :: setCompletedAt ts n val

/-- Modelled from the spec: the executor-facing `markItemCompleted(itemIndex)`
entry point (spec sections 5 and 6) is not under `src/`; per the spec it
reports one item's completion, which the source realises by calling
`TaskItem.set_completed` on that item. -/
def TaskSet.markItemCompleted (s : TaskSet.State) (i : ℕ) (val : Bool) :
    TaskSet.State :=
  { s with tasks := setCompletedAt s.tasks i val }

/-- Python `int(q)`: truncation toward zero. -/
def pyInt (q : ℚ) : ℤ :=
  if 0 ≤ q then ⌊q⌋ else ⌈q⌉

/-- Python `x // y` on floats: the floor of the true quotient (the result is
exact here because quotients are exact rationals in this embedding). -/
def pyFloorDiv (x y : ℚ) : ℤ :=
  ⌊x / y⌋

/-- Embedding of `Ui_MainWindow.update_total_images` (src/ui/app.py lines
359-362): `N = abs((start_voltage - stop_voltage) // step_voltage)`, then
`N *= repetitions`, displayed as `int(N)`.  The floor division raises
`ZeroDivisionError` when the step is zero. -/
def update_total_images (start_voltage stop_voltage step_voltage : ℚ)
    (repetitions : ℤ) : Except PyError ℤ :=
  if step_voltage = 0 then .error .zeroDivisionError
  else .ok (|pyFloorDiv (start_voltage - stop_voltage) step_voltage| * repetitions)

/-- Days/hours/minutes/seconds as computed by
`Ui_MainWindow.update_time_to_finish`. -/
structure TimeParts where
  days : ℤ
  hours : ℤ
  mins : ℤ
  secs : ℤ
deriving DecidableEq

/-- Embedding of lines 348-351 of src/ui/app.py: the decomposition of a total
time in seconds into days, hours, minutes and seconds.  `total_time // k` is
Python float floor division (its result is integral, so the enclosing
`int(...)` is exact), and the bare `int(total_time)` truncates toward zero. -/
def time_parts (total_time : ℚ) : TimeParts :=
  let days := pyFloorDiv total_time (24 * 3600)
  let hours := pyFloorDiv total_time (60 * 60) - 24 * days
  let mins := pyFloorDiv total_time 60 - 60 * 24 * days - 60 * hours
  let secs := pyInt total_time - 60 * 60 * 24 * days - 60 * 60 * hours - 60 * mins
  ⟨days, hours, mins, secs⟩

/-- Embedding of lines 352-355 of src/ui/app.py: the rendered duration string;
the days term appears only when positive, while hours, minutes and seconds are
always shown. -/
def render_time (p : TimeParts) : String :=
  let d := p.days
  let h := p.hours
  let m := p.mins
  let s := p.secs
  if d > 0 then s!"{d}d {h}h {m}m {s}s" else s!"{h}h {m}m {s}s"

/-- The Schedule Estimator's `estimatedDuration(lineTime, linesPerFrame,
imageCount)` (spec section 4.3): lines 346-357 of src/ui/app.py with the image
count abstracted as a parameter —
`total_time = 2 * line_time * lines_per_frame * N`, decomposed and rendered. -/
def estimatedDuration (line_time lines_per_frame image_count : ℚ) : String :=
  render_time (time_parts (2 * line_time * lines_per_frame * image_count))

/-- Embedding of `Ui_MainWindow.update_time_to_finish` (src/ui/app.py lines
343-357): the image count `N` from the voltage sweep parameters, then the
duration display.  The floor division raises `ZeroDivisionError` when the
step is zero. -/
def update_time_to_finish (start_voltage stop_voltage step_voltage : ℚ)
    (repetitions : ℤ) (line_time lines_per_frame : ℚ) : Except PyError String :=
  if step_voltage = 0 then .error .zeroDivisionError
  else
    let N : ℤ := |pyFloorDiv (start_voltage - stop_voltage) step_voltage| * repetitions
    .ok (estimatedDuration line_time lines_per_frame (N : ℚ))

/-- Sample base parameters, shared by the concrete instances below (the field
values mirror the defaults installed by `Ui_MainWindow.__init__`). -/
def demoData : TaskSetData :=
  { bias := ⟨2, -1⟩
    set_point := ⟨120, -12⟩
    size := ⟨100, -9⟩
    x_offset := ⟨0, -9⟩
    y_offset := ⟨0, -9⟩
    scan_speed := ⟨100, -9⟩
    line_time := ⟨1, 0⟩
    lines_per_frame := 256
    repetitions := 1
    sweep_parameter := .none
    sweep_start := ⟨0, 0⟩
    sweep_stop := ⟨0, 0⟩
    sweep_step := ⟨0, 0⟩ }

/-- Sample Work Item built from `demoData`. -/
def demoTask : TaskData :=
  { inner := ImageData.ofData demoData, dtype := .Image }

/-- Sample Task Set state owning one unfinished Work Item. -/
def demoState : TaskSet.State :=
  { status := .Ready, tasks := [demoTask], bar_value := 0 }

/-- Sample Task Set state owning no Work Items. -/
def emptyState : TaskSet.State :=
  { status := .Ready, tasks := [], bar_value := 0 }

/-- Sweep specification of the spec's concrete expansion example:
bias sweep from -1 to 1 in steps of 1/2. -/
def sweepDemo : TaskSetData :=
  { demoData with
    sweep_parameter := .bias
    sweep_start := .from_float (-1)
    sweep_stop := .from_float 1
    sweep_step := .from_float (1 / 2) }

/-- Sweep specification with a zero step and distinct endpoints. -/
def zeroStepData : TaskSetData :=
  { demoData with
    sweep_parameter := .bias
    sweep_start := .from_float 0
    sweep_stop := .from_float 1
    sweep_step := .from_float 0 }

/-- Sweep specification whose step points away from the range:
`sweep_start < sweep_stop` but `sweep_step < 0`. -/
def awayData : TaskSetData :=
  { demoData with
    sweep_parameter := .bias
    sweep_start := .from_float 0
    sweep_stop := .from_float 1
    sweep_step := .from_float (-1 / 2) }

/-- The value of a Task Set's swept field on a Work Item: the bias for a bias
sweep, the size for a size sweep (resolved to a plain number). -/
def sweptValue (data : TaskSetData) (t : TaskData) : ℚ :=
  match data.sweep_parameter with
  | .size => t.inner.size.to_float
  | _ => t.inner.bias.to_float

/-- Sweep specification with a positive step that does not divide the range:
start 0, stop 1, step 2/5. -/
def stepMismatchData : TaskSetData :=
  { demoData with
    sweep_parameter := .bias
    sweep_start := .from_float 0
    sweep_stop := .from_float 1
    sweep_step := .from_float (2 / 5) }

/-! ## Helper lemmas -/

/-- Round-trip law (spec section 8): resolving a freshly constructed Scaled
Decimal Value recovers the original number exactly. -/
@[simp] theorem ExponentialNumber.to_float_from_float (x : ℚ) :
    (ExponentialNumber.from_float x).to_float = x := by
  simp [ExponentialNumber.to_float, ExponentialNumber.from_float]

theorem setCompletedAt_length (l : List TaskData) (i : ℕ) (val : Bool) :
    (setCompletedAt l i val).length = l.length := by
  induction l generalizing i with
  | nil => rfl
  | cons t ts ih =>
      cases i with
      | zero => rfl
      | succ n => simp [setCompletedAt, ih]

theorem setCompletedAt_getElem_ne (l : List TaskData) (i : ℕ) (val : Bool)
    (j : ℕ) (hj : j ≠ i) : (setCompletedAt l i val)[j]? = l[j]? := by
  induction l generalizing i j with
  | nil => rfl
  | cons t ts ih =>
      cases i with
      | zero =>
          cases j with
          | zero => exact absurd rfl hj
          | succ m => simp [setCompletedAt]
      | succ n =>
          cases j with
          | zero => simp [setCompletedAt]
          | succ m => simpa [setCompletedAt] using ih n m (by omega)

theorem setCompletedAt_getElem_eq (l : List TaskData) (i : ℕ) (val : Bool)
    (t : TaskData) (ht : l[i]? = some t) :
    (setCompletedAt l i val)[i]? = some (TaskItem.set_completed t val) := by
  induction l generalizing i with
  | nil => simp at ht
  | cons u ts ih =>
      cases i with
      | zero =>
          simp only [List.getElem?_cons_zero, Option.some.injEq] at ht
          simp [setCompletedAt, ht]
      | succ n =>
          simp only [List.getElem?_cons_succ] at ht
          simpa [setCompletedAt] using ih n ht

theorem rat_floor_div_nat (t : ℚ) (n : ℕ) (hn : 0 < n) :
    ⌊t / (n : ℚ)⌋ = ⌊t⌋ / (n : ℤ) := by
  have hq : (0 : ℚ) < (n : ℚ) := by exact_mod_cast hn
  have hz : (0 : ℤ) < (n : ℤ) := by exact_mod_cast hn
  have key : ∀ z : ℤ, z ≤ ⌊t / (n : ℚ)⌋ ↔ z ≤ ⌊t⌋ / (n : ℤ) := by
    intro z
    rw [Int.le_floor, le_div_iff₀ hq, Int.le_ediv_iff_mul_le hz, Int.le_floor]
    push_cast
    exact Iff.rfl
  exact le_antisymm ((key _).mp le_rfl) ((key _).mpr le_rfl)

theorem time_parts_exact (t : ℚ) (ht : 0 ≤ t) :
    86400 * (time_parts t).days + 3600 * (time_parts t).hours
        + 60 * (time_parts t).mins + (time_parts t).secs = ⌊t⌋ ∧
      0 ≤ (time_parts t).days ∧
      0 ≤ (time_parts t).hours ∧ (time_parts t).hours < 24 ∧
      0 ≤ (time_parts t).mins ∧ (time_parts t).mins < 60 ∧
      0 ≤ (time_parts t).secs ∧ (time_parts t).secs < 60 := by
  have hF : 0 ≤ ⌊t⌋ := Int.floor_nonneg.mpr ht
  have hpy : pyInt t = ⌊t⌋ := if_pos ht
  have hd : pyFloorDiv t (24 * 3600) = ⌊t⌋ / 86400 := by
    have := rat_floor_div_nat t 86400 (by norm_num)
    simpa [pyFloorDiv, show ((24 : ℚ) * 3600) = 86400 by norm_num] using this
  have hh : pyFloorDiv t (60 * 60) = ⌊t⌋ / 3600 := by
    have := rat_floor_div_nat t 3600 (by norm_num)
    simpa [pyFloorDiv, show ((60 : ℚ) * 60) = 3600 by norm_num] using this
  have hm : pyFloorDiv t 60 = ⌊t⌋ / 60 := by
    have := rat_floor_div_nat t 60 (by norm_num)
    simpa [pyFloorDiv] using this
  simp only [time_parts, hpy, hd, hh, hm]
  omega

theorem time_parts_4096 : time_parts 4096 = ⟨0, 1, 8, 16⟩ := by
  have h1 : pyFloorDiv 4096 (24 * 3600) = 0 := by
    rw [pyFloorDiv, Int.floor_eq_iff]; norm_num
  have h2 : pyFloorDiv 4096 (60 * 60) = 1 := by
    rw [pyFloorDiv, Int.floor_eq_iff]; norm_num
  have h3 : pyFloorDiv 4096 60 = 68 := by
    rw [pyFloorDiv, Int.floor_eq_iff]; norm_num
  have h4 : pyInt 4096 = 4096 := by
    rw [pyInt, if_pos (by norm_num : (0:ℚ) ≤ 4096), Int.floor_eq_iff]; norm_num
  rw [time_parts, h1, h2, h3, h4]
  norm_num [TimeParts.mk.injEq]

/-! ## Claim theorems -/

/-- C2 counterexample: statuses are not terminal in the code.  Starting from a
ready one-item Task Set, `setStatus(Finished)` succeeds, and a subsequent
`setStatus(Working)` neither fails nor is a no-op: it succeeds and leaves the
status `Working`, not `Finished`. -/
theorem setStatus_after_finished_cex :
    TaskSet.setStatus demoState .Finished
        = .ok { demoState with status := .Finished } ∧
    TaskSet.setStatus { demoState with status := .Finished } .Working
        = .ok { demoState with status := .Working } ∧
    ({ demoState with status := .Working } : TaskSet.State).status ≠ .Finished := by
  refine ⟨?_, ?_, by simp [demoState]⟩ <;>
    simp [TaskSet.setStatus, TaskSet.update_task_bar, demoState, demoTask]

/-- C2 amended: `setStatus` enforces no terminal states — on any Task Set with
a nonempty Work Item list, `setStatus(state)` succeeds and unconditionally
overwrites the status with `state` (whatever the previous status was),
leaving the Work Items unchanged. -/
theorem setStatus_unconditional (s : TaskSet.State) (st : TaskSet.Status)
    (h : s.tasks ≠ []) :
    ∃ s2 : TaskSet.State, TaskSet.setStatus s st = .ok s2 ∧ s2.status = st ∧
      s2.tasks = s.tasks := by
  refine ⟨{ s with status := st, bar_value :=
      ((s.tasks.filter fun t => t.completed).length : ℚ) / (s.tasks.length : ℚ) },
    ?_, rfl, rfl⟩
  rw [TaskSet.setStatus, TaskSet.update_task_bar,
    if_neg (by simpa [List.length_eq_zero] using h)]

/-- C2 witness: the amended theorem applied to the one-item sample state. -/
theorem setStatus_unconditional_witness :
    demoState.tasks ≠ [] ∧
    ∃ s2 : TaskSet.State, TaskSet.setStatus demoState .Working = .ok s2 ∧
      s2.status = .Working ∧ s2.tasks = demoState.tasks :=
  ⟨by simp [demoState], setStatus_unconditional demoState .Working (by simp [demoState])⟩

/-- C3: evaluating the progress computation on a Task Set whose Work Item list
is empty — the division `len(completed_tasks) / len(self._info.task_items)`
raises `ZeroDivisionError` instead of returning 0. -/
theorem update_task_bar_empty_raises :
    TaskSet.update_task_bar emptyState = .error .zeroDivisionError := by
  simp [TaskSet.update_task_bar, emptyState]

/-- C5 counterexample: the code computes `abs((start - stop) // step) * reps`,
applying the absolute value after the floor division.  At `start = 0`,
`stop = 1`, `step = 0.3`, `repetitions = 1` it returns `abs(floor(-10/3)) = 4`,
whereas the claimed formula `repetitions * floor(|start - stop| / step)`
gives `floor(10/3) = 3`. -/
theorem update_total_images_floor_formula_cex :
    update_total_images 0 1 (3 / 10) 1 = .ok 4 ∧
    1 * ⌊|(0 : ℚ) - 1| / (3 / 10)⌋ = 3 := by
  constructor
  · have h : pyFloorDiv ((0 : ℚ) - 1) (3 / 10) = -4 := by
      rw [pyFloorDiv, Int.floor_eq_iff]; norm_num
    rw [update_total_images, if_neg (by norm_num : ¬((3 : ℚ) / 10 = 0)), h]
    norm_num
  · have h : ⌊|(0 : ℚ) - 1| / (3 / 10)⌋ = 3 := by
      rw [Int.floor_eq_iff]; norm_num
    rw [h]
    norm_num

/-- C5 amended: for a nonzero step and nonnegative repetition count, the total
image count is `|⌊(start - stop) / step⌋| * repetitions` (the absolute value
taken after the floor division, so an inexact quotient with `start < stop` is
rounded away from zero rather than truncated); the result is a nonnegative
integer, and on `start = 0.2`, `stop = 1.0`, `step = 0.1`, `repetitions = 1`
it equals 8. -/
theorem update_total_images_eq (sv pv st : ℚ) (reps : ℤ)
    (hst : st ≠ 0) (hreps : 0 ≤ reps) :
    update_total_images sv pv st reps = .ok (|⌊(sv - pv) / st⌋| * reps) ∧
    0 ≤ |⌊(sv - pv) / st⌋| * reps ∧
    update_total_images (2 / 10) 1 (1 / 10) 1 = .ok 8 := by
  refine ⟨?_, mul_nonneg (abs_nonneg _) hreps, ?_⟩
  · rw [update_total_images, if_neg hst]; rfl
  · have h : pyFloorDiv ((2 : ℚ) / 10 - 1) (1 / 10) = -8 := by
      rw [pyFloorDiv, Int.floor_eq_iff]; norm_num
    rw [update_total_images, if_neg (by norm_num : ¬((1 : ℚ) / 10 = 0)), h]
    norm_num

/-- C5 witness: the amended theorem applied at concrete inputs. -/
theorem update_total_images_eq_witness :
    ((1 : ℚ) ≠ 0) ∧ (0 ≤ (1 : ℤ)) ∧
    update_total_images 0 1 1 1 = .ok (|⌊((0 : ℚ) - 1) / 1⌋| * 1) :=
  ⟨by norm_num, by norm_num,
    (update_total_images_eq 0 1 1 1 (by norm_num) (by norm_num)).1⟩

/-- C6 counterexample: with a zero step the code raises `ZeroDivisionError`
from the floor division — it does not signal the spec's `InvalidSweep`. -/
theorem update_total_images_zero_step_cex :
    update_total_images 0 1 0 1 = .error .zeroDivisionError ∧
    update_total_images 0 1 0 1 ≠ .error .invalidSweep := by
  constructor
  · rw [update_total_images, if_pos rfl]
  · rw [update_total_images, if_pos rfl]; simp

/-- C6 amended: for every start, stop and repetitions, calling the total-image
computation with `step = 0` raises `ZeroDivisionError` (the uncaught Python
exception from `//` by zero); no `InvalidSweep` error exists in the code. -/
theorem update_total_images_zero_step (sv pv : ℚ) (reps : ℤ) :
    update_total_images sv pv 0 reps = .error .zeroDivisionError := by
  rw [update_total_images, if_pos rfl]

/-- C8: with `sweep_parameter = none`, `create_tasks` produces exactly one
Image Work Item carrying the base parameters, and the result does not depend
on the repetitions value. -/
theorem create_tasks_none_single (data : TaskSetData) (r : ℤ)
    (h : data.sweep_parameter = .none) :
    create_tasks data
        = .ok [{ inner := ImageData.ofData data, dtype := .Image, completed := false }] ∧
    create_tasks { data with repetitions := r } = create_tasks data := by
  constructor
  · simp [create_tasks, h]
  · have h2 : ({ data with repetitions := r } : TaskSetData).sweep_parameter
        = SweepParameter.none := h
    simp [create_tasks, h, h2, ImageData.ofData]

/-- C8 witness: the theorem applied to the sample non-swept specification. -/
theorem create_tasks_none_single_witness :
    demoData.sweep_parameter = .none ∧
    create_tasks demoData
      = .ok [{ inner := ImageData.ofData demoData, dtype := .Image, completed := false }] :=
  ⟨rfl, (create_tasks_none_single demoData 5 rfl).1⟩

/-- C9: marking a Work Item completed changes only that item's completed flag:
the Task Set's status, bar value and item count are untouched, every other
item is untouched, and the marked item keeps its payload and type tag.  The
status can only move through explicit `setStatus` calls. -/
theorem markItemCompleted_frame (s : TaskSet.State) (i : ℕ) (val : Bool) :
    (TaskSet.markItemCompleted s i val).status = s.status ∧
    (TaskSet.markItemCompleted s i val).bar_value = s.bar_value ∧
    (TaskSet.markItemCompleted s i val).tasks.length = s.tasks.length ∧
    (∀ j : ℕ, j ≠ i → (TaskSet.markItemCompleted s i val).tasks[j]? = s.tasks[j]?) ∧
    (∀ t : TaskData, s.tasks[i]? = some t →
      (TaskSet.markItemCompleted s i val).tasks[i]? = some (TaskItem.set_completed t val) ∧
      (TaskItem.set_completed t val).inner = t.inner ∧
      (TaskItem.set_completed t val).dtype = t.dtype ∧
      (TaskItem.set_completed t val).completed = val) := by
  refine ⟨rfl, rfl, setCompletedAt_length _ _ _, ?_, ?_⟩
  · intro j hj
    exact setCompletedAt_getElem_ne s.tasks i val j hj
  · intro t ht
    exact ⟨setCompletedAt_getElem_eq s.tasks i val t ht, rfl, rfl, rfl⟩

/-- C9 witness: the frame theorem applied to the one-item sample state. -/
theorem markItemCompleted_frame_witness :
    (TaskSet.markItemCompleted demoState 0 true).status = demoState.status ∧
    (TaskSet.markItemCompleted demoState 0 true).tasks[1]? = demoState.tasks[1]? :=
  ⟨(markItemCompleted_frame demoState 0 true).1,
    (markItemCompleted_frame demoState 0 true).2.2.2.1 1 (by norm_num)⟩

/-- C10: a bias sweep whose step points away from the range
(`sweep_start < sweep_stop` but `sweep_step < 0`) expands to an empty Work
Item sequence without any error, so a Task Set owning zero Work Items can be
constructed. -/
theorem create_tasks_away_step_empty :
    awayData.sweep_start.to_float < awayData.sweep_stop.to_float ∧
    awayData.sweep_step.to_float < 0 ∧
    create_tasks awayData = .ok [] := by
  have h1 : awayData.sweep_start.to_float = 0 := by simp [awayData]
  have h2 : awayData.sweep_stop.to_float = 1 := by simp [awayData]
  have h3 : awayData.sweep_step.to_float = -1 / 2 := by simp [awayData]
  refine ⟨by rw [h1, h2]; norm_num, by rw [h3]; norm_num, ?_⟩
  have h4 : awayData.sweep_parameter = .bias := rfl
  have h5 : np_arange 0 (1 + -1 / 2) (-1 / 2) = .ok [] := by
    rw [np_arange, if_neg (by norm_num : ¬((-1 : ℚ) / 2 = 0))]
    have hc : ⌈((1 : ℚ) + -1 / 2 - 0) / (-1 / 2)⌉ = -1 := by
      rw [Int.ceil_eq_iff]; norm_num
    rw [hc]
    rfl
  simp [create_tasks, h4, h1, h2, h3, h5, Except.map]

/-- C7: the estimated duration is `2 * lineTime * linesPerFrame * imageCount`
seconds; its days/hours/minutes/seconds decomposition is exact — the units
recombine to the whole-second total with each component in range — the
rendered form omits the days term when it is zero while always showing hours,
minutes and seconds, and the concrete instance `lineTime = 1 s`,
`linesPerFrame = 256`, `imageCount = 8` gives 4096 s rendered as "1h 8m 16s". -/
theorem estimatedDuration_exact (lt lpf N : ℚ)
    (h1 : 0 ≤ lt) (h2 : 0 ≤ lpf) (h3 : 0 ≤ N) :
    ∃ p : TimeParts, time_parts (2 * lt * lpf * N) = p ∧
      86400 * p.days + 3600 * p.hours + 60 * p.mins + p.secs = ⌊2 * lt * lpf * N⌋ ∧
      0 ≤ p.days ∧
      (0 ≤ p.hours ∧ p.hours < 24) ∧
      (0 ≤ p.mins ∧ p.mins < 60) ∧
      (0 ≤ p.secs ∧ p.secs < 60) ∧
      estimatedDuration lt lpf N = render_time p ∧
      (p.days = 0 → estimatedDuration lt lpf N = s!"{p.hours}h {p.mins}m {p.secs}s") ∧
      estimatedDuration 1 256 8 = "1h 8m 16s" := by
  have ht : 0 ≤ 2 * lt * lpf * N := by positivity
  obtain ⟨hsum, hd, hh1, hh2, hm1, hm2, hs1, hs2⟩ := time_parts_exact _ ht
  refine ⟨time_parts (2 * lt * lpf * N), rfl, hsum, hd, ⟨hh1, hh2⟩, ⟨hm1, hm2⟩,
    ⟨hs1, hs2⟩, rfl, ?_, ?_⟩
  · intro h0
    rw [estimatedDuration]
    simp [render_time, h0]
  · rw [estimatedDuration, show (2 : ℚ) * 1 * 256 * 8 = 4096 by norm_num,
      time_parts_4096]
    rfl

/-- C7 witness: the duration theorem applied at the spec's concrete inputs. -/
theorem estimatedDuration_exact_witness :
    (0 ≤ (1 : ℚ)) ∧ (0 ≤ (256 : ℚ)) ∧ (0 ≤ (8 : ℚ)) ∧
    estimatedDuration 1 256 8 = "1h 8m 16s" := by
  obtain ⟨p, hp, hsum, hd, hhb, hmb, hsb, hrend, hdays, hconc⟩ :=
    estimatedDuration_exact 1 256 8 (by norm_num) (by norm_num) (by norm_num)
  exact ⟨by norm_num, by norm_num, by norm_num, hconc⟩

theorem np_arange_spec (a b st : ℚ) (hst : 0 < st) (hab : a ≤ b) :
    ∃ r : List ℚ, np_arange a (b + st) st = .ok r ∧
      r.length = (⌈(b - a) / st⌉).toNat + 1 ∧
      (∀ i : ℕ, ∀ hi : i < r.length, r.get ⟨i, hi⟩ = a + i * st) ∧
      r.Pairwise (· < ·) ∧
      (∀ v : ℚ, r.getLast? = some v → v ≤ b + st) ∧
      ((b - a) / st = ((⌊(b - a) / st⌋ : ℤ) : ℚ) →
        (r.length : ℤ) = ⌊(b - a) / st⌋ + 1) := by
  have hstz : st ≠ 0 := ne_of_gt hst
  have hq0 : 0 ≤ (b - a) / st := div_nonneg (by linarith) hst.le
  have hc0 : 0 ≤ ⌈(b - a) / st⌉ := Int.ceil_nonneg hq0
  have hf0 : 0 ≤ ⌊(b - a) / st⌋ := Int.floor_nonneg.mpr hq0
  have hkey : (b + st - a) / st = (b - a) / st + 1 := by
    field_simp
    ring
  have hceil : ⌈(b + st - a) / st⌉ = ⌈(b - a) / st⌉ + 1 := by
    rw [hkey, Int.ceil_add_one]
  set n : ℕ := (⌈(b + st - a) / st⌉).toNat with hn
  clear_value n
  have hnval : n = (⌈(b - a) / st⌉).toNat + 1 := by
    rw [hn, hceil]; omega
  refine ⟨(List.range n).map fun i : ℕ => a + (i : ℚ) * st, ?_, ?_, ?_, ?_, ?_, ?_⟩
  · rw [np_arange, if_neg hstz, hn]
  · simp [hnval]
  · intro i hi
    simp
  · rw [List.pairwise_map]
    refine (List.pairwise_lt_range n).imp ?_
    intro i j hij
    have hcast : (i : ℚ) < j := by exact_mod_cast hij
    have := mul_lt_mul_of_pos_right hcast hst
    linarith
  · intro v hv
    have hlen : ((List.range n).map fun i : ℕ => a + (i : ℚ) * st).length = n := by
      simp
    have hne : n ≠ 0 := by omega
    have hsome : ((List.range n).map fun i : ℕ => a + (i : ℚ) * st)[n - 1]?
        = some (a + ((n - 1 : ℕ) : ℚ) * st) := by
      rw [List.getElem?_eq_getElem (by simpa [hlen] using by omega : n - 1 < _)]
      simp
    rw [List.getLast?_eq_getElem?, hlen, hsome] at hv
    have hv2 : a + ((n - 1 : ℕ) : ℚ) * st = v := by
      injection hv
    have hcast : ((n - 1 : ℕ) : ℚ) = ((⌈(b - a) / st⌉ : ℤ) : ℚ) := by
      have h1 : (n - 1 : ℕ) = (⌈(b - a) / st⌉).toNat := by omega
      rw [h1]
      exact_mod_cast congrArg (fun z : ℤ => (z : ℚ)) (Int.toNat_of_nonneg hc0)
    have hceil_le : ((⌈(b - a) / st⌉ : ℤ) : ℚ) ≤ (b - a) / st + 1 :=
      (Int.ceil_lt_add_one _).le
    have hmul : ((b - a) / st) * st = b - a := div_mul_cancel₀ _ hstz
    have hbound := mul_le_mul_of_nonneg_right hceil_le hst.le
    rw [← hv2, hcast]
    nlinarith [hbound, hmul]
  · intro hdvd
    have hcf : ⌈(b - a) / st⌉ = ⌊(b - a) / st⌋ := by
      rw [hdvd, Int.ceil_intCast, Int.floor_intCast]
    have hlen : ((List.range n).map fun i : ℕ => a + (i : ℚ) * st).length = n := by
      simp
    rw [hlen, hnval, hcf]
    omega

theorem np_arange_demo :
    np_arange (-1) (1 + 1 / 2) (1 / 2) = .ok [-1, -1 / 2, 0, 1 / 2, 1] := by
  rw [np_arange, if_neg (by norm_num : ¬((1 : ℚ) / 2 = 0))]
  have hc : ⌈((1 : ℚ) + 1 / 2 - -1) / (1 / 2)⌉ = 5 := by
    rw [Int.ceil_eq_iff]; norm_num
  rw [hc, show Int.toNat 5 = 5 from rfl]
  norm_num [List.range_succ]

theorem np_arange_mismatch :
    np_arange 0 (1 + 2 / 5) (2 / 5) = .ok [0, 2 / 5, 4 / 5, 6 / 5] := by
  rw [np_arange, if_neg (by norm_num : ¬((2 : ℚ) / 5 = 0))]
  have hc : ⌈((1 : ℚ) + 2 / 5 - 0) / (2 / 5)⌉ = 4 := by
    rw [Int.ceil_eq_iff]; norm_num
  rw [hc, show Int.toNat 4 = 4 from rfl]
  norm_num [List.range_succ]

/-- C1 counterexample: the generated count is not `⌊(stop - start)/step⌋ + 1`.
For the bias sweep `start = 0`, `stop = 1`, `step = 0.4` (nonzero, pointing in
the direction of the range), the code generates 4 Work Items (values 0, 0.4,
0.8, 1.2), while the claimed formula gives `⌊2.5⌋ + 1 = 3`. -/
theorem create_tasks_count_cex :
    Except.map List.length (create_tasks stepMismatchData) = .ok 4 ∧
    ⌊(stepMismatchData.sweep_stop.to_float - stepMismatchData.sweep_start.to_float)
        / stepMismatchData.sweep_step.to_float⌋ + 1 = 3 := by
  have e1 : stepMismatchData.sweep_start.to_float = 0 := by
    simp [stepMismatchData]
  have e2 : stepMismatchData.sweep_stop.to_float = 1 := by
    simp [stepMismatchData]
  have e3 : stepMismatchData.sweep_step.to_float = 2 / 5 := by
    simp [stepMismatchData]
  have hsp : stepMismatchData.sweep_parameter = .bias := rfl
  constructor
  · simp only [create_tasks, hsp, e1, e2, e3]
    rw [np_arange_mismatch]
    simp [Except.map]
  · rw [e1, e2, e3]
    have h : ⌊((1 : ℚ) - 0) / (2 / 5)⌋ = 2 := by
      rw [Int.floor_eq_iff]; norm_num
    rw [h]
    norm_num

/-- C1 amended: for a bias (or size) sweep with positive step and
`sweep_start ≤ sweep_stop`, `create_tasks` succeeds; the generated count is
`⌈(sweep_stop - sweep_start) / sweep_step⌉ + 1` — which equals the claim's
`⌊(sweep_stop - sweep_start) / sweep_step⌋ + 1` exactly when the step divides
the range — the i-th swept value is `sweep_start + i * sweep_step`, the values
are strictly ascending starting at `sweep_start`, and the final value exceeds
`sweep_stop` by at most one step.  The spec's concrete instance (bias sweep
from -1 to 1 by 1/2) yields exactly the five bias values -1, -0.5, 0, 0.5, 1
in that order. -/
theorem create_tasks_sweep_count (data : TaskSetData)
    (hp : data.sweep_parameter = .bias ∨ data.sweep_parameter = .size)
    (hst : 0 < data.sweep_step.to_float)
    (hab : data.sweep_start.to_float ≤ data.sweep_stop.to_float) :
    (∃ l : List TaskData, create_tasks data = .ok l ∧
      l.length = (⌈(data.sweep_stop.to_float - data.sweep_start.to_float)
          / data.sweep_step.to_float⌉).toNat + 1 ∧
      (∀ i : ℕ, ∀ hi : i < l.length, sweptValue data (l.get ⟨i, hi⟩)
          = data.sweep_start.to_float + i * data.sweep_step.to_float) ∧
      (l.map (sweptValue data)).Pairwise (· < ·) ∧
      (∀ t : TaskData, l.getLast? = some t →
        sweptValue data t ≤ data.sweep_stop.to_float + data.sweep_step.to_float) ∧
      ((data.sweep_stop.to_float - data.sweep_start.to_float) / data.sweep_step.to_float
          = ((⌊(data.sweep_stop.to_float - data.sweep_start.to_float)
              / data.sweep_step.to_float⌋ : ℤ) : ℚ) →
        (l.length : ℤ) = ⌊(data.sweep_stop.to_float - data.sweep_start.to_float)
            / data.sweep_step.to_float⌋ + 1)) ∧
    Except.map (List.map fun t => t.inner.bias.to_float) (create_tasks sweepDemo)
      = .ok [-1, -1 / 2, 0, 1 / 2, 1] := by
  constructor
  · obtain ⟨r, hr, hlen, hget, hpair, hlast, hdvd⟩ :=
      np_arange_spec data.sweep_start.to_float data.sweep_stop.to_float
        data.sweep_step.to_float hst hab
    rcases hp with h | h
    · refine ⟨r.map fun v =>
        { inner := { ImageData.ofData data with bias := .from_float v }
          dtype := .Image, completed := false }, ?_, ?_, ?_, ?_, ?_, ?_⟩
      · simp only [create_tasks, h]
        rw [hr]
        rfl
      · simpa using hlen
      · intro i hi
        have hi2 : i < r.length := by simpa using hi
        have hv := hget i hi2
        simp only [List.get_eq_getElem] at hv ⊢
        simp [List.getElem_map, sweptValue, h, hv]
      · have hcomp : ((r.map fun v =>
            { inner := { ImageData.ofData data with bias := .from_float v }
              dtype := .Image, completed := false }).map (sweptValue data)) = r := by
          rw [List.map_map]
          have hfun : ∀ v ∈ r, (sweptValue data ∘ fun v =>
              ({ inner := { ImageData.ofData data with bias := .from_float v }
                 dtype := .Image, completed := false } : TaskData)) v = id v := by
            intro v hv
            simp [sweptValue, h]
          rw [List.map_congr_left hfun, List.map_id]
        rw [hcomp]
        exact hpair
      · intro t ht
        rw [List.getLast?_map] at ht
        cases hrv : r.getLast? with
        | none => simp [hrv] at ht
        | some v =>
            rw [hrv] at ht
            injection ht with ht2
            have := hlast v hrv
            rw [← ht2]
            simpa [sweptValue, h] using this
      · intro hd
        have := hdvd hd
        simpa using this
    · refine ⟨r.map fun v =>
        { inner := { ImageData.ofData data with size := .from_float v }
          dtype := .Image }, ?_, ?_, ?_, ?_, ?_, ?_⟩
      · simp only [create_tasks, h]
        rw [hr]
        rfl
      · simpa using hlen
      · intro i hi
        have hi2 : i < r.length := by simpa using hi
        have hv := hget i hi2
        simp only [List.get_eq_getElem] at hv ⊢
        simp [List.getElem_map, sweptValue, h, hv]
      · have hcomp : ((r.map fun v =>
            { inner := { ImageData.ofData data with size := .from_float v }
              dtype := .Image }).map (sweptValue data)) = r := by
          rw [List.map_map]
          have hfun : ∀ v ∈ r, (sweptValue data ∘ fun v =>
              ({ inner := { ImageData.ofData data with size := .from_float v }
                 dtype := .Image } : TaskData)) v = id v := by
            intro v hv
            simp [sweptValue, h]
          rw [List.map_congr_left hfun, List.map_id]
        rw [hcomp]
        exact hpair
      · intro t ht
        rw [List.getLast?_map] at ht
        cases hrv : r.getLast? with
        | none => simp [hrv] at ht
        | some v =>
            rw [hrv] at ht
            injection ht with ht2
            have := hlast v hrv
            rw [← ht2]
            simpa [sweptValue, h] using this
      · intro hd
        have := hdvd hd
        simpa using this
  · have e1 : sweepDemo.sweep_start.to_float = -1 := by
      simp [sweepDemo]
    have e2 : sweepDemo.sweep_stop.to_float = 1 := by
      simp [sweepDemo]
    have e3 : sweepDemo.sweep_step.to_float = 1 / 2 := by
      simp [sweepDemo]
    have hsp : sweepDemo.sweep_parameter = .bias := rfl
    simp only [create_tasks, hsp, e1, e2, e3]
    rw [np_arange_demo]
    simp [Except.map, List.map_map, Function.comp]

/-- C1 witness: the amended sweep theorem applied to the concrete -1..1 by 1/2
bias sweep. -/
theorem create_tasks_sweep_count_witness :
    sweepDemo.sweep_parameter = .bias ∧
    0 < sweepDemo.sweep_step.to_float ∧
    sweepDemo.sweep_start.to_float ≤ sweepDemo.sweep_stop.to_float ∧
    Except.map (List.map fun t => t.inner.bias.to_float) (create_tasks sweepDemo)
      = .ok [-1, -1 / 2, 0, 1 / 2, 1] :=
  ⟨rfl, by simp [sweepDemo], by simp [sweepDemo],
    (create_tasks_sweep_count sweepDemo (Or.inl rfl)
      (by simp [sweepDemo]) (by simp [sweepDemo])).2⟩

/-- C4 counterexample: on a bias sweep with `sweep_step = 0` and
`sweep_start ≠ sweep_stop`, `create_tasks` does fail before producing any Work
Item, but with `numpy.arange`'s `ZeroDivisionError` — not with the spec's
`InvalidSweep` error, which the code never produces. -/
theorem create_tasks_zero_step_cex :
    zeroStepData.sweep_start.to_float ≠ zeroStepData.sweep_stop.to_float ∧
    create_tasks zeroStepData = .error .zeroDivisionError ∧
    create_tasks zeroStepData ≠ .error .invalidSweep := by
  have e3 : zeroStepData.sweep_step.to_float = 0 := by
    simp [zeroStepData]
  have hsp : zeroStepData.sweep_parameter = .bias := rfl
  have hval : create_tasks zeroStepData = .error .zeroDivisionError := by
    simp only [create_tasks, hsp, e3]
    rw [np_arange, if_pos rfl]
    rfl
  refine ⟨by simp [zeroStepData], hval, ?_⟩
  rw [hval]
  simp

/-- C4 amended: for every bias or size sweep with a zero step and distinct
endpoints, `create_tasks` raises `ZeroDivisionError` (from `numpy.arange`)
and produces no partial Work Item sequence — but no `InvalidSweep` error
exists in the code. -/
theorem create_tasks_zero_step (data : TaskSetData)
    (hp : data.sweep_parameter = .bias ∨ data.sweep_parameter = .size)
    (hz : data.sweep_step.to_float = 0)
    (_h2 : data.sweep_start.to_float ≠ data.sweep_stop.to_float) :
    create_tasks data = .error .zeroDivisionError := by
  rcases hp with h | h <;>
    · simp only [create_tasks, h, hz]
      rw [np_arange, if_pos rfl]
      rfl

/-- C4 witness: the amended theorem applied to the concrete zero-step sweep. -/
theorem create_tasks_zero_step_witness :
    zeroStepData.sweep_parameter = .bias ∧
    zeroStepData.sweep_step.to_float = 0 ∧
    zeroStepData.sweep_start.to_float ≠ zeroStepData.sweep_stop.to_float ∧
    create_tasks zeroStepData = .error .zeroDivisionError :=
  ⟨rfl, by simp [zeroStepData], by simp [zeroStepData],
    create_tasks_zero_step zeroStepData (Or.inl rfl) (by simp [zeroStepData])
      (by simp [zeroStepData])⟩
